import Mathlib

/-!
Shallow embedding of `flask_apispec/extension.py` (the `FlaskApiSpec`
registration coordinator) together with spec-modelled stand-ins for the
parts of the repository and its collaborators that are not under `src/`
(the two path converters of `flask_apispec/apidoc.py` and the external
OpenAPI document builder's `path` operation).

State is passed explicitly: the Python object `FlaskApiSpec` becomes the
`Coordinator` structure, its methods become functions
`Coordinator → ... → Coordinator × Option Err`, where the `Option Err`
component is the exception (if any) propagated to the caller.
-/

set_option autoImplicit false

deriving instance DecidableEq for Except

namespace FlaskApiSpec

/-- One OpenAPI operation in a path descriptor: keyed by lower-case HTTP
method, carrying the documentation tags attached to the handler. -/
structure Operation where
  method : String
  tags : List String
deriving Repr, DecidableEq

/-- A path descriptor: URL template (already in OpenAPI `{name}` form)
plus one operation per HTTP method. -/
structure PathEntry where
  path : String
  operations : List Operation
deriving Repr, DecidableEq

/-- The accumulating specification document: the `_paths` mapping of the
APISpec object, as an insertion-ordered association list keyed by the
path template. -/
abbrev Spec := List PathEntry

/-- A registration target, resolved by shape: `types.FunctionType`
(plain view function), `ResourceMeta` (class-based resource view, with
the HTTP verbs it implements), or anything else. Documentation tags
attached via the `@doc` decorator travel with the target. -/
inductive Target where
  | function (name : String) (tags : List String)
  | resource (name : String) (tags : List String) (verbs : List String)
  | other (name : String)
deriving Repr, DecidableEq

/-- Exception classes the embedded code can raise. `typeError` is the
bare `TypeError()` of `_register`; `lookupError` / `valueError` are the
converter failures the spec describes (no matching rule / ambiguous
match); `attributeError` is Python's `AttributeError` from using a
still-`None` attribute. -/
inductive Err where
  | typeError
  | lookupError (endpoint : String)
  | valueError (endpoint : String)
  | attributeError
deriving Repr, DecidableEq

/-- A URL rule from the external routing table: endpoint name, owning
blueprint (namespace), framework-native path template, HTTP methods. -/
structure UrlRule where
  endpoint : String
  blueprint : Option String
  template : String
  methods : List String
deriving Repr, DecidableEq

/-- App configuration, modelling the `APISPEC_*` keys read by the
extension. A field of `none` means the key is absent from the config
mapping; a configured falsy value (Python `None` or `''`) is modelled as
`some ""` for the URL options, since the code only tests their
truthiness. -/
structure Config where
  apispecSpec : Option Spec
  swaggerUrl : Option String
  swaggerUiUrl : Option String
  blueprintCfg : Option String
deriving Repr, DecidableEq

/-- The attached Flask application: its config, its endpoint-to-view
table (`app.view_functions`), and its routing table. -/
structure App where
  config : Config
  viewFunctions : List (String × Target)
  rules : List UrlRule
deriving Repr, DecidableEq

/-- A captured `register` invocation: the arguments that
`_defer(self._register, target, endpoint, blueprint, resource_class_args,
resource_class_kwargs)` binds into the queued partial. -/
structure Call where
  target : Target
  endpoint : Option String
  blueprint : Option String
  resourceClassArgs : List String
  resourceClassKwargs : List (String × String)
deriving Repr, DecidableEq

/-- The `FlaskApiSpec` object state: `_deferred`, `app`, `spec`, the
blueprint's name, and the URL rules added to the blueprint by
`add_swagger_routes`. -/
structure Coordinator where
  deferred : List Call
  app : Option App
  spec : Option Spec
  blueprintName : Option String
  routes : List (String × String)
deriving Repr, DecidableEq

/-- `FlaskApiSpec.__init__` state before the optional `init_app` call:
`self._deferred = []`, `self.app = None`, `self.spec = None`,
`self.blueprint = None`. -/
def newCoordinator : Coordinator :=
  { deferred := [], app := none, spec := none, blueprintName := none, routes := [] }

/-- Parameter names of `FlaskApiSpec.__init__` exactly as written in
`src/flask_apispec/extension.py`: `def __init__(self, app=None)`. -/
def initParamNames : List String := ["self", "app"]

/-- Whether an operation list already carries an operation for the same
HTTP method as `o`. -/
def opMem (l : List Operation) (o : Operation) : Bool :=
  l.any (fun x => x.method == o.method)

/-- Merge of two operation lists when a path descriptor is re-added for
an existing template: operations of the new descriptor overwrite the old
ones per HTTP method, methods not re-added survive. -/
def mergeOps (old new : List Operation) : List Operation :=
  old.filter (fun o => ! opMem new o) ++ new

/-- Modelled from the spec: the external document builder's add-path
operation (`APISpec.path`, from the `apispec` package, not under
`src/`). Per the spec's invariant, re-adding an existing path + method
combination overwrites in place, it does not duplicate. -/
def specPath : Spec → PathEntry → Spec
  | [], pe => [pe]
  | e :: rest, pe =>
    if e.path = pe.path then
      { path := e.path, operations := mergeOps e.operations pe.operations } :: rest
    else
      e :: specPath rest pe

/-- Keys (path templates) of a document, in insertion order. -/
def keysOf (sp : Spec) : List String := sp.map PathEntry.path

/-- Document well-formedness: at most one entry per path template. -/
def wfSpec (sp : Spec) : Prop := (keysOf sp).Nodup

instance (sp : Spec) : Decidable (wfSpec sp) := by
  unfold wfSpec; infer_instance

/-- Split a character list at every occurrence of a separator
(the model of Python's `str.split`). -/
def splitOnChar (sep : Char) : List Char → List (List Char)
  | [] => [[]]
  | c :: rest =>
    let r := splitOnChar sep rest
    if c = sep then [] :: r
    else
      match r with
      | [] => [[c]]
      | g :: gs => (c :: g) :: gs

/-- The `blueprint_name, _ = name.split('.')` step of
`register_existing_resources`: the destructuring succeeds only when the
split yields exactly two parts, otherwise the `ValueError` is caught and
the blueprint name is `None`. -/
def blueprintOfName (name : String) : Option String :=
  match splitOnChar '.' name.data with
  | [b, _] => some (String.mk b)
  | _ => none

/-- Scanner translating a framework-native template to OpenAPI form:
outside a placeholder, characters pass through; `<` opens a placeholder;
inside one, `:` resets the accumulated segment (dropping the converter
prefix of `<int:band_id>`) and `>` emits the final segment wrapped in
braces. -/
def tplGo : Option (List Char) → List Char → List Char
  | none, [] => []
  | none, c :: rest =>
    if c = '<' then tplGo (some []) rest else c :: tplGo none rest
  | some seg, [] => Char.ofNat 123 :: (seg.reverse ++ [Char.ofNat 125])
  | some seg, c :: rest =>
    if c = '>' then Char.ofNat 123 :: (seg.reverse ++ Char.ofNat 125 :: tplGo none rest)
    else if c = ':' then tplGo (some []) rest
    else tplGo (some (c :: seg)) rest

/-- Modelled from the spec: placeholder translation performed during
conversion (step 2 of §4.3; the code lives in `flask_apispec/apidoc.py`,
which is not under `src/`): `<int:band_id>` becomes the OpenAPI
placeholder spelled with braces around `band_id`. -/
def translateTemplate (s : String) : String := String.mk (tplGo none s.data)

/-- Lower-casing of an HTTP method name for use as an operation key. -/
def lowerStr (s : String) : String := String.mk (s.data.map Char.toLower)

/-- Modelled from the spec: rule resolution shared by both converters
(§4.3 step 1, §4.4 step 1; `flask_apispec/apidoc.py` is not under
`src/`). With a blueprint given, rules are filtered by endpoint and
blueprint; without one, an unambiguous match by endpoint is required.
No matching rule is a lookup error; a match owned by several blueprints
with none given to disambiguate is a value error. -/
def resolveRules (a : App) (ep : String) (bp : Option String) :
    Except Err (List UrlRule) :=
  match bp with
  | some b =>
    let rs := a.rules.filter (fun r => r.endpoint = ep ∧ r.blueprint = some b)
    if rs.isEmpty then Except.error (Err.lookupError ep) else Except.ok rs
  | none =>
    let rs := a.rules.filter (fun r => r.endpoint = ep)
    if rs.isEmpty then Except.error (Err.lookupError ep)
    else if 1 < (rs.map UrlRule.blueprint).dedup.length then
      Except.error (Err.valueError ep)
    else Except.ok rs

/-- The path descriptor one URL rule contributes for a function
handler: translated template, one operation per HTTP method of the
rule, carrying the handler's documentation tags. -/
def ruleEntryV (tags : List String) (r : UrlRule) : PathEntry :=
  { path := translateTemplate r.template,
    operations := r.methods.map (fun m => { method := lowerStr m, tags := tags }) }

/-- The path descriptor one URL rule contributes for a resource class:
translated template, one operation per HTTP verb the class implements,
carrying the class-level documentation tags. -/
def ruleEntryR (tags verbs : List String) (r : UrlRule) : PathEntry :=
  { path := translateTemplate r.template,
    operations := verbs.map (fun v => { method := lowerStr v, tags := tags }) }

/-- Modelled from the spec: `ViewConverter.convert` of
`flask_apispec/apidoc.py` (not under `src/`), per §4.3: resolve the
handler's rules, translate each template, derive one operation per HTTP
method carrying the handler's documentation tags, and merge rules that
share a template into one descriptor. -/
def viewConvert (a : App) (name : String) (tags : List String)
    (endpoint blueprint : Option String) : Except Err (List PathEntry) :=
  (resolveRules a (endpoint.getD name) blueprint).map (fun rules =>
    (rules.map (ruleEntryV tags)).foldl specPath [])

/-- Modelled from the spec: `ResourceConverter.convert` of
`flask_apispec/apidoc.py` (not under `src/`), per §4.4: resolve rules by
the class's registered view name, then build one operation per HTTP verb
the class implements, carrying the class-level documentation tags.
Instantiation with the forwarded constructor arguments has no observable
effect beyond attribute introspection (§4.4 step 2), so the model reads
the attributes from the target value and the arguments are inert. -/
def resourceConvert (a : App) (name : String) (tags : List String)
    (verbs : List String) (endpoint blueprint : Option String)
    (_resourceClassArgs : List String)
    (_resourceClassKwargs : List (String × String)) : Except Err (List PathEntry) :=
  (resolveRules a (endpoint.getD name) blueprint).map (fun rules =>
    (rules.map (ruleEntryR tags verbs)).foldl specPath [])

/-- The type dispatch of `_register`: `isinstance(target,
types.FunctionType)` selects the view converter, `isinstance(target,
ResourceMeta)` the resource converter, anything else raises
`TypeError()`. -/
def convertTarget (a : App) (call : Call) : Except Err (List PathEntry) :=
  match call.target with
  | Target.function n tags => viewConvert a n tags call.endpoint call.blueprint
  | Target.resource n tags verbs =>
    resourceConvert a n tags verbs call.endpoint call.blueprint
      call.resourceClassArgs call.resourceClassKwargs
  | Target.other _ => Except.error Err.typeError

/-- `FlaskApiSpec._register`: convert the target into path descriptors,
then `for path in paths: self.spec.path(**path)`. -/
def _register (a : App) (sp : Spec) (call : Call) : Except Err Spec :=
  (convertTarget a call).map (fun ps => ps.foldl specPath sp)

/-- Execute a captured call against the coordinator's live app and
document (the body of a queued `functools.partial(self._register, ...)`
invocation). Before attachment `self.view_converter` is still `None`,
so execution would raise `AttributeError`. -/
def execCall (c : Coordinator) (call : Call) : Coordinator × Option Err :=
  match c.app, c.spec with
  | some a, some sp =>
    match _register a sp call with
    | Except.ok sp2 => ({ c with spec := some sp2 }, none)
    | Except.error e => (c, some e)
  | _, _ => (c, some Err.attributeError)

/-- `FlaskApiSpec._defer`: the bound partial is appended to
`self._deferred` unconditionally, and additionally executed immediately
when `self.app` is set. -/
def _defer (c : Coordinator) (call : Call) : Coordinator × Option Err :=
  let c1 : Coordinator := { c with deferred := c.deferred ++ [call] }
  match c1.app with
  | some _ => execCall c1 call
  | none => (c1, none)

/-- `FlaskApiSpec.register`: captures the arguments and hands the bound
`_register` partial to `_defer`. -/
def register (c : Coordinator) (call : Call) : Coordinator × Option Err :=
  _defer c call

/-- `FlaskApiSpec.add_swagger_routes`: each of the two surface routes is
added to the blueprint only when its configured URL (defaulting to
`/swagger/` resp. `/swagger-ui/` when the key is absent) is truthy.
The result is the list of (url, endpoint-name) rules added. -/
def add_swagger_routes (cfg : Config) : List (String × String) :=
  let jsonUrl := cfg.swaggerUrl.getD "/swagger/"
  let uiUrl := cfg.swaggerUiUrl.getD "/swagger-ui/"
  (if jsonUrl = "" then [] else [(jsonUrl, "swagger-json")]) ++
    (if uiUrl = "" then [] else [(uiUrl, "swagger-ui")])

/-- The drain loop `for deferred in self._deferred: deferred()`, with an
execution trace: returns the document after draining, the list of calls
actually executed, and the first propagated error (after which the loop
body is never reached again, exactly as a raising iteration exits a
Python `for` loop). -/
def drainGo (a : App) : Spec → List Call → Spec × List Call × Option Err
  | sp, [] => (sp, [], none)
  | sp, call :: rest =>
    match _register a sp call with
    | Except.ok sp2 =>
      let r := drainGo a sp2 rest
      (r.1, call :: r.2.1, r.2.2)
    | Except.error e => (sp, [call], some e)

/-- `FlaskApiSpec.init_app`: store the app, resolve the document from
`APISPEC_SPEC` (else build a fresh empty one), resolve the blueprint
(configured one, else `make_blueprint()` whose default name is
`flask-apispec`), add the swagger routes, construct the converters, and
finally drain the deferred queue — which is read but never cleared. -/
def init_app (c : Coordinator) (a : App) : Coordinator × Option Err :=
  let sp0 := a.config.apispecSpec.getD []
  let res := drainGo a sp0 c.deferred
  ({ deferred := c.deferred,
     app := some a,
     spec := some res.1,
     blueprintName := some (a.config.blueprintCfg.getD "flask-apispec"),
     routes := add_swagger_routes a.config },
   res.2.2)

/-- The calls executed while `init_app` drains the queue. -/
def init_appTrace (c : Coordinator) (a : App) : List Call :=
  (drainGo a (a.config.apispecSpec.getD []) c.deferred).2.1

/-- The call `register_existing_resources` makes for one entry of
`app.view_functions`: `self.register(rule, blueprint=blueprint_name)`,
all other arguments left at their defaults. -/
def scanCall (nt : String × Target) : Call :=
  { target := nt.2, endpoint := none, blueprint := blueprintOfName nt.1,
    resourceClassArgs := [], resourceClassKwargs := [] }

/-- The scan loop of `register_existing_resources`: each item is
registered inside `try: ... except TypeError: pass`, so a `TypeError`
moves on to the next item while any other exception propagates and ends
the loop. -/
def registerExistingGo (c : Coordinator) : List (String × Target) → Coordinator × Option Err
  | [] => (c, none)
  | nt :: rest =>
    let r := register c (scanCall nt)
    match r.2 with
    | none => registerExistingGo r.1 rest
    | some Err.typeError => registerExistingGo r.1 rest
    | some e => (r.1, some e)

/-- `FlaskApiSpec.register_existing_resources`: iterate
`self.app.view_functions.items()`; unattached, `self.app` is `None` and
the attribute access raises. -/
def register_existing_resources (c : Coordinator) : Coordinator × Option Err :=
  match c.app with
  | some a => registerExistingGo c a.viewFunctions
  | none => (c, some Err.attributeError)

/-- Path templates currently present in a coordinator's document. -/
def specKeys (c : Coordinator) : List String := keysOf (c.spec.getD [])

/-! Concrete fixtures, mirroring the repository's test scenarios: one
route `/bands/<int:band_id>/` with a tagged view function `get_band`,
and a non-qualifying `static` view. -/

/-- The URL rule of the `get_band` view. -/
def bandRule : UrlRule :=
  { endpoint := "get_band", blueprint := none,
    template := "/bands/<int:band_id>/", methods := ["GET"] }

/-- A default configuration: every `APISPEC_*` key absent. -/
def cfg0 : Config :=
  { apispecSpec := none, swaggerUrl := none, swaggerUiUrl := none, blueprintCfg := none }

/-- An application with one qualifying route and one non-qualifying
(static-file) route. -/
def appEx : App :=
  { config := cfg0,
    viewFunctions :=
      [("static", Target.other "send_static_file"),
       ("get_band", Target.function "get_band" ["band"])],
    rules := [bandRule] }

/-- A `register(get_band)` invocation. -/
def goodCall : Call :=
  { target := Target.function "get_band" ["band"], endpoint := none, blueprint := none,
    resourceClassArgs := [], resourceClassKwargs := [] }

/-- A `register` invocation on a non-function, non-resource target. -/
def badCall : Call :=
  { target := Target.other "send_static_file", endpoint := none, blueprint := none,
    resourceClassArgs := [], resourceClassKwargs := [] }

/-- The OpenAPI template produced for `bandRule`. -/
def bandPath : String := "/bands/\x7bband_id\x7d/"

/-- A coordinator attached to `appEx` with an empty document. -/
def cAttached : Coordinator := (init_app newCoordinator appEx).1

/-- An unattached coordinator with one good queued registration. -/
def cDeferredG : Coordinator := { newCoordinator with deferred := [goodCall] }

/-- An unattached coordinator whose queue holds a failing call followed
by a good one. -/
def cDeferredBG : Coordinator := { newCoordinator with deferred := [badCall, goodCall] }

/-- An unattached coordinator whose queue is good, failing, good. -/
def cDeferredGBG : Coordinator :=
  { newCoordinator with deferred := [goodCall, badCall, goodCall] }

/-- The path descriptor `goodCall` produces. -/
def bandEntry : PathEntry :=
  { path := bandPath, operations := [{ method := "get", tags := ["band"] }] }

/-- The document after registering `goodCall` into an empty document. -/
def specG : Spec := [bandEntry]

/-- A configuration whose JSON-document URL is configured empty (falsy)
and whose UI URL key is absent. -/
def cfgW : Config := { cfg0 with swaggerUrl := some "" }

/-! Helper lemmas about the document builder model. -/

@[simp]
theorem keysOf_nil : keysOf [] = [] := rfl

@[simp]
theorem keysOf_cons (e : PathEntry) (rest : Spec) :
    keysOf (e :: rest) = e.path :: keysOf rest := rfl

theorem filter_not_opMem_self (n : List Operation) :
    n.filter (fun o => ! opMem n o) = [] := by
  rw [List.filter_eq_nil_iff]
  intro o ho
  simp only [opMem, Bool.not_eq_true', Bool.not_eq_false]
  exact List.any_eq_true.mpr ⟨o, ho, beq_self_eq_true o.method⟩

theorem mergeOps_merge (o n : List Operation) :
    mergeOps (mergeOps o n) n = mergeOps o n := by
  unfold mergeOps
  rw [List.filter_append, filter_not_opMem_self, List.append_nil, List.filter_filter]
  congr 1
  apply List.filter_congr
  intro x _
  exact Bool.and_self _

theorem mergeOps_self (n : List Operation) : mergeOps n n = n := by
  have h := mergeOps_merge [] n
  simpa [mergeOps] using h

theorem keysOf_specPath (sp : Spec) (pe : PathEntry) :
    keysOf (specPath sp pe) =
      if pe.path ∈ keysOf sp then keysOf sp else keysOf sp ++ [pe.path] := by
  induction sp with
  | nil => simp [specPath]
  | cons e rest ih =>
    by_cases h : e.path = pe.path
    · have hc : pe.path ∈ e.path :: keysOf rest := by
        rw [h]
        exact List.mem_cons_self _ _
      simp only [specPath, if_pos h, keysOf_cons, if_pos hc]
    · simp only [specPath, if_neg h, keysOf_cons, ih]
      by_cases hm : pe.path ∈ keysOf rest
      · have hc : pe.path ∈ e.path :: keysOf rest := List.mem_cons_of_mem _ hm
        rw [if_pos hm, if_pos hc]
      · have hc : pe.path ∉ e.path :: keysOf rest := by
          rw [List.mem_cons]
          rintro (hx | hx)
          · exact h hx.symm
          · exact hm hx
        rw [if_neg hm, if_neg hc]
        simp

theorem mem_keys_specPath_self (sp : Spec) (pe : PathEntry) :
    pe.path ∈ keysOf (specPath sp pe) := by
  rw [keysOf_specPath]
  by_cases hm : pe.path ∈ keysOf sp
  · simp [hm]
  · simp [hm]

theorem mem_keys_specPath_mono (sp : Spec) (pe : PathEntry) (t : String)
    (h : t ∈ keysOf sp) : t ∈ keysOf (specPath sp pe) := by
  rw [keysOf_specPath]
  by_cases hm : pe.path ∈ keysOf sp
  · simpa [hm]
  · simp [hm, List.mem_append]
    exact Or.inl h

theorem wf_specPath (sp : Spec) (pe : PathEntry) (h : wfSpec sp) :
    wfSpec (specPath sp pe) := by
  unfold wfSpec at h ⊢
  rw [keysOf_specPath]
  by_cases hm : pe.path ∈ keysOf sp
  · simpa [hm]
  · simp only [hm, if_false]
    exact List.Nodup.append h (List.nodup_singleton _)
      (by simpa [List.disjoint_singleton] using hm)

theorem wf_foldl_specPath (ps : List PathEntry) (sp : Spec) (h : wfSpec sp) :
    wfSpec (ps.foldl specPath sp) := by
  induction ps generalizing sp with
  | nil => exact h
  | cons pe rest ih => exact ih _ (wf_specPath _ _ h)

theorem mem_keys_foldl_mono (ps : List PathEntry) (sp : Spec) (t : String)
    (h : t ∈ keysOf sp) : t ∈ keysOf (ps.foldl specPath sp) := by
  induction ps generalizing sp with
  | nil => exact h
  | cons pe rest ih => exact ih _ (mem_keys_specPath_mono _ _ _ h)

theorem mem_keys_foldl_self (ps : List PathEntry) :
    ∀ (sp : Spec) (pe : PathEntry), pe ∈ ps → pe.path ∈ keysOf (ps.foldl specPath sp) := by
  induction ps with
  | nil =>
    intro sp pe h
    cases h
  | cons q rest ih =>
    intro sp pe h
    rcases List.mem_cons.mp h with hq | hq
    · subst hq
      exact mem_keys_foldl_mono rest _ _ (mem_keys_specPath_self _ _)
    · exact ih _ _ hq

theorem specPath_comm_of_mem (sp : Spec) (pe q : PathEntry)
    (hne : pe.path ≠ q.path) (hmem : pe.path ∈ keysOf sp) :
    specPath (specPath sp q) pe = specPath (specPath sp pe) q := by
  induction sp with
  | nil => simp at hmem
  | cons e rest ih =>
    by_cases hpe : e.path = pe.path
    · have hqe : ¬ e.path = q.path := fun hc => hne (hpe ▸ hc)
      simp [specPath, hpe, hqe, hne]
    · by_cases hqe : e.path = q.path
      · have hne' : ¬ q.path = pe.path := fun hc => hne hc.symm
        simp [specPath, hpe, hqe, hne']
      · have hmem' : pe.path ∈ keysOf rest := by
          rcases List.mem_cons.mp (by simpa using hmem) with hx | hx
          · exact absurd hx.symm hpe
          · exact hx
        simp [specPath, hpe, hqe, ih hmem']

theorem specPath_idem (sp : Spec) (pe : PathEntry) :
    specPath (specPath sp pe) pe = specPath sp pe := by
  induction sp with
  | nil => simp [specPath, mergeOps_self]
  | cons e rest ih =>
    by_cases h : e.path = pe.path
    · simp [specPath, h, mergeOps_merge]
    · simp [specPath, h, ih]

theorem specPath_foldl_comm (ps : List PathEntry) :
    ∀ (sp : Spec) (pe : PathEntry), pe.path ∈ keysOf sp →
      pe.path ∉ ps.map PathEntry.path →
      specPath (ps.foldl specPath sp) pe = ps.foldl specPath (specPath sp pe) := by
  induction ps with
  | nil =>
    intro sp pe _ _
    rfl
  | cons q rest ih =>
    intro sp pe hmem hnin
    have hne : pe.path ≠ q.path := by
      intro hc
      exact hnin (by simp [hc])
    have hnin' : pe.path ∉ rest.map PathEntry.path := by
      intro hc
      exact hnin (by simp [hc])
    calc specPath (rest.foldl specPath (specPath sp q)) pe
        = rest.foldl specPath (specPath (specPath sp q) pe) :=
          ih _ _ (mem_keys_specPath_mono _ _ _ hmem) hnin'
      _ = rest.foldl specPath (specPath (specPath sp pe) q) := by
          rw [specPath_comm_of_mem _ _ _ hne hmem]

theorem foldl_specPath_idem (ps : List PathEntry) :
    ∀ (sp : Spec), (ps.map PathEntry.path).Nodup →
      ps.foldl specPath (ps.foldl specPath sp) = ps.foldl specPath sp := by
  induction ps with
  | nil =>
    intro sp _
    rfl
  | cons pe rest ih =>
    intro sp hnd
    rw [List.map_cons] at hnd
    obtain ⟨hnin, hnd'⟩ := List.nodup_cons.mp hnd
    show rest.foldl specPath
        (specPath (rest.foldl specPath (specPath sp pe)) pe) = rest.foldl specPath (specPath sp pe)
    rw [specPath_foldl_comm rest _ _ (mem_keys_specPath_self _ _) hnin,
        specPath_idem]
    exact ih _ hnd'

/-! Lemmas about the converters, `_register`, the drain loop and
`register`. -/

theorem convert_wf (a : App) (call : Call) (ps : List PathEntry)
    (h : convertTarget a call = Except.ok ps) : wfSpec ps := by
  unfold convertTarget at h
  cases hT : call.target with
  | function n tags =>
    rw [hT] at h
    replace h : viewConvert a n tags call.endpoint call.blueprint = Except.ok ps := h
    unfold viewConvert at h
    cases hr : resolveRules a (call.endpoint.getD n) call.blueprint with
    | ok rs =>
      rw [hr] at h
      simp only [Except.map, Except.ok.injEq] at h
      rw [← h]
      exact wf_foldl_specPath _ _ List.nodup_nil
    | error e =>
      rw [hr] at h
      simp [Except.map] at h
  | resource n tags verbs =>
    rw [hT] at h
    replace h : resourceConvert a n tags verbs call.endpoint call.blueprint
        call.resourceClassArgs call.resourceClassKwargs = Except.ok ps := h
    unfold resourceConvert at h
    cases hr : resolveRules a (call.endpoint.getD n) call.blueprint with
    | ok rs =>
      rw [hr] at h
      simp only [Except.map, Except.ok.injEq] at h
      rw [← h]
      exact wf_foldl_specPath _ _ List.nodup_nil
    | error e =>
      rw [hr] at h
      simp [Except.map] at h
  | other n =>
    rw [hT] at h
    cases h

theorem _register_of_convert_ok (a : App) (sp : Spec) (call : Call)
    (ps : List PathEntry) (h : convertTarget a call = Except.ok ps) :
    _register a sp call = Except.ok (ps.foldl specPath sp) := by
  simp [_register, h, Except.map]

theorem _register_of_convert_error (a : App) (sp : Spec) (call : Call)
    (e : Err) (h : convertTarget a call = Except.error e) :
    _register a sp call = Except.error e := by
  simp [_register, h, Except.map]

theorem _register_ok_elim (a : App) (sp : Spec) (call : Call) (sp2 : Spec)
    (h : _register a sp call = Except.ok sp2) :
    ∃ ps, convertTarget a call = Except.ok ps ∧ sp2 = ps.foldl specPath sp := by
  unfold _register at h
  cases hc : convertTarget a call with
  | ok ps =>
    rw [hc] at h
    simp only [Except.map, Except.ok.injEq] at h
    exact ⟨ps, rfl, h.symm⟩
  | error e =>
    rw [hc] at h
    simp [Except.map] at h

theorem _register_idem (a : App) (sp sp1 : Spec) (call : Call)
    (h : _register a sp call = Except.ok sp1) :
    _register a sp1 call = Except.ok sp1 := by
  obtain ⟨ps, hc, hsp⟩ := _register_ok_elim a sp call sp1 h
  have hnd : (ps.map PathEntry.path).Nodup := convert_wf a call ps hc
  rw [_register_of_convert_ok a sp1 call ps hc, hsp,
      foldl_specPath_idem ps sp hnd]

theorem drainGo_append_ok (a : App) (xs : List Call) :
    ∀ (sp sp1 : Spec) (tr ys : List Call),
      drainGo a sp xs = (sp1, tr, none) →
      drainGo a sp (xs ++ ys) =
        ((drainGo a sp1 ys).1, tr ++ (drainGo a sp1 ys).2.1, (drainGo a sp1 ys).2.2) := by
  induction xs with
  | nil =>
    intro sp sp1 tr ys h
    simp only [drainGo, Prod.mk.injEq] at h
    obtain ⟨h1, h2, _⟩ := h
    subst h1
    subst h2
    simp
  | cons c rest ih =>
    intro sp sp1 tr ys h
    cases hr : _register a sp c with
    | ok sp2 =>
      simp only [drainGo, hr, Prod.mk.injEq] at h
      obtain ⟨hd1, hd2, hd3⟩ := h
      have hrec : drainGo a sp2 rest = (sp1, (drainGo a sp2 rest).2.1, none) := by
        rw [← hd1, ← hd3]
      simp only [List.cons_append, drainGo, hr, List.append_eq]
      rw [ih sp2 sp1 (drainGo a sp2 rest).2.1 ys hrec, ← hd2]
      simp
    | error e =>
      simp only [drainGo, hr, Prod.mk.injEq] at h
      obtain ⟨_, _, h3⟩ := h
      cases h3

theorem drainGo_append_error (a : App) (xs : List Call) :
    ∀ (sp sp1 : Spec) (tr : List Call) (e : Err) (ys : List Call),
      drainGo a sp xs = (sp1, tr, some e) →
      drainGo a sp (xs ++ ys) = (sp1, tr, some e) := by
  induction xs with
  | nil =>
    intro sp sp1 tr e ys h
    simp only [drainGo, Prod.mk.injEq] at h
    obtain ⟨_, _, h3⟩ := h
    cases h3
  | cons c rest ih =>
    intro sp sp1 tr e ys h
    cases hr : _register a sp c with
    | ok sp2 =>
      simp only [drainGo, hr, Prod.mk.injEq] at h
      obtain ⟨hd1, hd2, hd3⟩ := h
      have hrec : drainGo a sp2 rest = (sp1, (drainGo a sp2 rest).2.1, some e) := by
        rw [← hd1, ← hd3]
      simp only [List.cons_append, drainGo, hr, List.append_eq]
      rw [ih sp2 sp1 (drainGo a sp2 rest).2.1 e ys hrec, ← hd2]
    | error e2 =>
      simp only [drainGo, hr, Prod.mk.injEq, Option.some.injEq] at h
      obtain ⟨h1, h2, h3⟩ := h
      simp only [List.cons_append, drainGo, hr]
      rw [h1, h2, h3]

theorem drainGo_trace_of_ok (a : App) (l : List Call) :
    ∀ (sp : Spec), (drainGo a sp l).2.2 = none → (drainGo a sp l).2.1 = l := by
  induction l with
  | nil =>
    intro sp _
    rfl
  | cons c rest ih =>
    intro sp h
    cases hr : _register a sp c with
    | ok sp2 =>
      simp only [drainGo, hr] at h ⊢
      rw [ih sp2 h]
    | error e =>
      simp only [drainGo, hr] at h
      cases h

theorem register_unattached (c : Coordinator) (call : Call) (h : c.app = none) :
    register c call = ({ c with deferred := c.deferred ++ [call] }, none) := by
  simp [register, _defer, h]

theorem register_attached_cases (c : Coordinator) (a : App) (sp : Spec) (call : Call)
    (hA : c.app = some a) (hS : c.spec = some sp) :
    register c call =
      match _register a sp call with
      | Except.ok sp2 => ({ c with deferred := c.deferred ++ [call], spec := some sp2 }, none)
      | Except.error e => ({ c with deferred := c.deferred ++ [call] }, some e) := by
  unfold register _defer execCall
  cases hr : _register a sp call <;> simp [hA, hS, hr]

theorem register_attached_ok (c : Coordinator) (a : App) (sp : Spec) (call : Call)
    (sp2 : Spec) (hA : c.app = some a) (hS : c.spec = some sp)
    (hr : _register a sp call = Except.ok sp2) :
    register c call = ({ c with deferred := c.deferred ++ [call], spec := some sp2 }, none) := by
  rw [register_attached_cases c a sp call hA hS, hr]

theorem register_attached_error (c : Coordinator) (a : App) (sp : Spec) (call : Call)
    (e : Err) (hA : c.app = some a) (hS : c.spec = some sp)
    (hr : _register a sp call = Except.error e) :
    register c call = ({ c with deferred := c.deferred ++ [call] }, some e) := by
  rw [register_attached_cases c a sp call hA hS, hr]

theorem register_deferred (c : Coordinator) (call : Call) :
    (register c call).1.deferred = c.deferred ++ [call] := by
  cases hA : c.app with
  | none => rw [register_unattached c call hA]
  | some a =>
    cases hS : c.spec with
    | none => simp [register, _defer, execCall, hA, hS]
    | some sp =>
      cases hr : _register a sp call with
      | ok sp2 => rw [register_attached_ok c a sp call sp2 hA hS hr]
      | error e => rw [register_attached_error c a sp call e hA hS hr]

theorem register_app (c : Coordinator) (call : Call) :
    (register c call).1.app = c.app := by
  cases hA : c.app with
  | none =>
    rw [register_unattached c call hA]
    simp [hA]
  | some a =>
    cases hS : c.spec with
    | none => simp [register, _defer, execCall, hA, hS]
    | some sp =>
      cases hr : _register a sp call with
      | ok sp2 =>
        rw [register_attached_ok c a sp call sp2 hA hS hr]
        exact hA
      | error e =>
        rw [register_attached_error c a sp call e hA hS hr]
        exact hA

theorem register_spec_isSome (c : Coordinator) (call : Call)
    (h : c.spec.isSome = true) : (register c call).1.spec.isSome = true := by
  cases hA : c.app with
  | none => rw [register_unattached c call hA]; exact h
  | some a =>
    cases hS : c.spec with
    | none => rw [hS] at h; cases h
    | some sp =>
      cases hr : _register a sp call with
      | ok sp2 =>
        rw [register_attached_ok c a sp call sp2 hA hS hr]
        simp
      | error e =>
        rw [register_attached_error c a sp call e hA hS hr]
        simpa using h

theorem register_keys_mono (c : Coordinator) (call : Call) (t : String)
    (h : t ∈ specKeys c) : t ∈ specKeys (register c call).1 := by
  cases hA : c.app with
  | none => rw [register_unattached c call hA]; exact h
  | some a =>
    cases hS : c.spec with
    | none =>
      simp only [specKeys, hS, Option.getD_none, keysOf_nil] at h
      exact absurd h (List.not_mem_nil t)
    | some sp =>
      cases hr : _register a sp call with
      | ok sp2 =>
        rw [register_attached_ok c a sp call sp2 hA hS hr]
        obtain ⟨ps, _, hsp⟩ := _register_ok_elim a sp call sp2 hr
        simp only [specKeys, hS, Option.getD_some] at h
        simp only [specKeys, Option.getD_some, hsp]
        exact mem_keys_foldl_mono ps sp t h
      | error e =>
        rw [register_attached_error c a sp call e hA hS hr]
        simpa [specKeys, hS] using h

/-! Claim theorems. -/

/-- Claim C10: the deferred list gains exactly one captured call per
`register` call, whatever the attachment state; `init_app` reads the
queue but never clears it; hence a subsequent `init_app` re-executes
every registration made so far (the executed trace of an error-free
drain is the whole queue). -/
theorem deferred_queue_grows_and_persists (c : Coordinator) (a : App) (call : Call) :
    (register c call).1.deferred = c.deferred ++ [call]
    ∧ (init_app c a).1.deferred = c.deferred
    ∧ ((init_app c a).2 = none → init_appTrace c a = c.deferred) := by
  refine ⟨register_deferred c call, rfl, ?_⟩
  intro h
  exact drainGo_trace_of_ok a c.deferred _ h

/-- Witness for C10 at concrete inputs: one queued call, one attachment. -/
theorem deferred_queue_grows_and_persists_witness :
    (register cDeferredG goodCall).1.deferred = [goodCall, goodCall]
    ∧ init_appTrace cDeferredG appEx = [goodCall] :=
  ⟨(deferred_queue_grows_and_persists cDeferredG appEx goodCall).1,
   (deferred_queue_grows_and_persists cDeferredG appEx goodCall).2.2 (by decide)⟩

/-- Claim C4 counterexample: after `init_app` drains the queue, the
queued call is still in the deferred list — it is not consumed and
discarded. -/
theorem init_app_keeps_queue_cex :
    (init_app cDeferredG appEx).2 = none
    ∧ (init_app cDeferredG appEx).1.deferred = [goodCall] :=
  ⟨by decide, by decide⟩

/-- Claim C4 (amended): on an error-free attachment, `init_app` executes
each queued call exactly once, in the order originally deferred (the
executed trace equals the queue), but the queue is retained afterwards,
not discarded. -/
theorem init_app_drains_fifo_keeps_queue (c : Coordinator) (a : App)
    (hOk : (init_app c a).2 = none) :
    init_appTrace c a = c.deferred ∧ (init_app c a).1.deferred = c.deferred :=
  ⟨drainGo_trace_of_ok a c.deferred _ hOk, rfl⟩

/-- Witness for the amended C4 at a concrete queued registration. -/
theorem init_app_drains_fifo_keeps_queue_witness :
    init_appTrace cDeferredG appEx = [goodCall]
    ∧ (init_app cDeferredG appEx).1.deferred = [goodCall] :=
  init_app_drains_fifo_keeps_queue cDeferredG appEx (by decide)

/-- Claim C3 counterexample: on an attached coordinator with an empty
queue, `register` leaves the captured call in the deferred queue — the
call IS added to the queue even after attachment. -/
theorem register_attached_appends_cex :
    cAttached.deferred = [] ∧ (register cAttached goodCall).1.deferred = [goodCall] :=
  ⟨by decide, by decide⟩

/-- Claim C3 (amended): on an attached coordinator the captured call is
executed immediately — the resulting document and the raised error are
exactly those of `_register` — and the call is additionally appended to
the deferred queue (queuing does not stop at attachment). -/
theorem register_attached_executes_and_queues (c : Coordinator) (a : App) (sp : Spec)
    (call : Call) (hA : c.app = some a) (hS : c.spec = some sp) :
    (register c call).1.deferred = c.deferred ++ [call]
    ∧ (∀ sp2, _register a sp call = Except.ok sp2 →
        (register c call).1.spec = some sp2 ∧ (register c call).2 = none)
    ∧ (∀ e, _register a sp call = Except.error e →
        (register c call).1.spec = some sp ∧ (register c call).2 = some e) := by
  refine ⟨register_deferred c call, ?_, ?_⟩
  · intro sp2 hr
    rw [register_attached_ok c a sp call sp2 hA hS hr]
    exact ⟨rfl, rfl⟩
  · intro e hr
    rw [register_attached_error c a sp call e hA hS hr]
    exact ⟨hS, rfl⟩

/-- Witness for the amended C3: the immediate execution adds the band
path to the document with no error. -/
theorem register_attached_executes_and_queues_witness :
    (register cAttached goodCall).1.spec = some specG
    ∧ (register cAttached goodCall).2 = none :=
  (register_attached_executes_and_queues cAttached appEx [] goodCall rfl rfl).2.1
    specG (by decide)

/-- Claim C7: the constructor signature in `src` is
`def __init__(self, app=None)` — it has no per-instance
`blueprint_name`, `swagger_url` or `swagger_ui_url` parameters, although
the repository tests construct `FlaskApiSpec(app, blueprint_name=...,
swagger_url=..., swagger_ui_url=...)`. -/
theorem init_signature_has_no_override_params :
    "blueprint_name" ∉ initParamNames
    ∧ "swagger_url" ∉ initParamNames
    ∧ "swagger_ui_url" ∉ initParamNames := by
  refine ⟨?_, ?_, ?_⟩ <;> decide

/-- Claim C8 counterexample: with the JSON-document URL key absent from
the configuration, the route at the default `/swagger/` path IS
registered — absence does not suppress registration. -/
theorem absent_swagger_url_registers_default_cex :
    cfg0.swaggerUrl = none
    ∧ ("/swagger/", "swagger-json") ∈ add_swagger_routes cfg0 :=
  ⟨rfl, by decide⟩

/-- Claim C8 (amended): an empty configured URL value suppresses that
surface route entirely (no swagger-json route exists at any URL, so in
particular none at the default `/swagger/`), while an absent key falls
back to the default URL and the route is registered there. -/
theorem swagger_routes_empty_vs_absent (cfg : Config) :
    (cfg.swaggerUrl = some "" → ∀ u, (u, "swagger-json") ∉ add_swagger_routes cfg)
    ∧ (cfg.swaggerUiUrl = some "" → ∀ u, (u, "swagger-ui") ∉ add_swagger_routes cfg)
    ∧ (cfg.swaggerUrl = none → ("/swagger/", "swagger-json") ∈ add_swagger_routes cfg)
    ∧ (cfg.swaggerUiUrl = none → ("/swagger-ui/", "swagger-ui") ∈ add_swagger_routes cfg) := by
  refine ⟨?_, ?_, ?_, ?_⟩
  · intro h u hmem
    by_cases hu : cfg.swaggerUiUrl.getD "/swagger-ui/" = "" <;>
      simp [add_swagger_routes, h, hu] at hmem
  · intro h u hmem
    by_cases hj : cfg.swaggerUrl.getD "/swagger/" = "" <;>
      simp [add_swagger_routes, h, hj] at hmem
  · intro h
    by_cases hu : cfg.swaggerUiUrl.getD "/swagger-ui/" = "" <;>
      simp [add_swagger_routes, h, hu]
  · intro h
    by_cases hj : cfg.swaggerUrl.getD "/swagger/" = "" <;>
      simp [add_swagger_routes, h, hj]

/-- Witness for the amended C8: empty JSON URL plus absent UI URL. -/
theorem swagger_routes_empty_vs_absent_witness :
    ("/swagger/", "swagger-json") ∉ add_swagger_routes cfgW
    ∧ ("/swagger-ui/", "swagger-ui") ∈ add_swagger_routes cfgW :=
  ⟨(swagger_routes_empty_vs_absent cfgW).1 rfl "/swagger/",
   (swagger_routes_empty_vs_absent cfgW).2.2.2 rfl⟩

/-- Claim C2: `_register` dispatches on the target's type — a plain
function goes to the view converter, a resource class to the resource
converter, and any other target raises the `TypeError`, which surfaces
at call time on an attached coordinator and at drain time for a queued
call. -/
theorem register_dispatches_by_target_type (a : App) (sp : Spec) (call : Call) :
    (∀ n tg, call.target = Target.function n tg →
      _register a sp call =
        (viewConvert a n tg call.endpoint call.blueprint).map
          (fun ps => ps.foldl specPath sp))
    ∧ (∀ n tg vs, call.target = Target.resource n tg vs →
      _register a sp call =
        (resourceConvert a n tg vs call.endpoint call.blueprint
          call.resourceClassArgs call.resourceClassKwargs).map
          (fun ps => ps.foldl specPath sp))
    ∧ (∀ n, call.target = Target.other n →
      _register a sp call = Except.error Err.typeError
      ∧ (∀ c, c.app = some a → c.spec = some sp →
          (register c call).2 = some Err.typeError)
      ∧ (drainGo a sp [call]).2.2 = some Err.typeError) := by
  refine ⟨?_, ?_, ?_⟩
  · intro n tg hT
    unfold _register convertTarget
    rw [hT]
  · intro n tg vs hT
    unfold _register convertTarget
    rw [hT]
  · intro n hT
    have hreg : _register a sp call = Except.error Err.typeError := by
      unfold _register convertTarget
      rw [hT]
      rfl
    refine ⟨hreg, ?_, ?_⟩
    · intro c hA hS
      rw [register_attached_error c a sp call Err.typeError hA hS hreg]
    · simp [drainGo, hreg]

/-- Witness for C2: the non-qualifying target fails with the TypeError
both directly and through an attached register. -/
theorem register_dispatches_by_target_type_witness :
    _register appEx [] badCall = Except.error Err.typeError
    ∧ (register cAttached badCall).2 = some Err.typeError :=
  ⟨((register_dispatches_by_target_type appEx [] badCall).2.2 "send_static_file" rfl).1,
   ((register_dispatches_by_target_type appEx [] badCall).2.2 "send_static_file" rfl).2.1
     cAttached rfl rfl⟩

/-- Claim C9 counterexample: with the queue `[badCall, goodCall]`, the
TypeError of the first call propagates out of `init_app` AND the
remaining queued call is NOT executed — its path is absent from the
document, although on its own it registers fine. -/
theorem drain_abort_cex :
    (init_app cDeferredBG appEx).2 = some Err.typeError
    ∧ bandPath ∉ specKeys (init_app cDeferredBG appEx).1
    ∧ _register appEx [] goodCall = Except.ok specG :=
  ⟨by decide, by decide, by decide⟩

/-- Claim C9 (amended): a failing queued call's error propagates to the
caller of `init_app` and the drain stops right there: the calls before
the failing one keep their effects, the failing call is the last one
executed, and the remaining queued calls are not executed. -/
theorem init_app_drain_aborts_at_first_error (c : Coordinator) (a : App)
    (ds1 ds2 : List Call) (bad : Call) (sp1 : Spec) (e : Err)
    (hd : c.deferred = ds1 ++ bad :: ds2)
    (h1 : drainGo a (a.config.apispecSpec.getD []) ds1 = (sp1, ds1, none))
    (hbad : _register a sp1 bad = Except.error e) :
    (init_app c a).2 = some e
    ∧ init_appTrace c a = ds1 ++ [bad]
    ∧ (init_app c a).1.spec = some sp1 := by
  have h2 : drainGo a sp1 (bad :: ds2) = (sp1, [bad], some e) := by
    simp [drainGo, hbad]
  have h3 : drainGo a (a.config.apispecSpec.getD []) (ds1 ++ bad :: ds2)
      = (sp1, ds1 ++ [bad], some e) := by
    rw [drainGo_append_ok a ds1 (a.config.apispecSpec.getD []) sp1 ds1 (bad :: ds2) h1, h2]
  refine ⟨?_, ?_, ?_⟩
  · show (drainGo a (a.config.apispecSpec.getD []) c.deferred).2.2 = some e
    rw [hd, h3]
  · show (drainGo a (a.config.apispecSpec.getD []) c.deferred).2.1 = ds1 ++ [bad]
    rw [hd, h3]
  · show some (drainGo a (a.config.apispecSpec.getD []) c.deferred).1 = some sp1
    rw [hd, h3]

/-- Witness for the amended C9: queue good, bad, good — the first call's
effect is kept, the failing call ends the drain, the third never runs. -/
theorem init_app_drain_aborts_at_first_error_witness :
    (init_app cDeferredGBG appEx).2 = some Err.typeError
    ∧ init_appTrace cDeferredGBG appEx = [goodCall, badCall]
    ∧ (init_app cDeferredGBG appEx).1.spec = some specG :=
  init_app_drain_aborts_at_first_error cDeferredGBG appEx [goodCall] [goodCall]
    badCall specG Err.typeError (by decide) (by decide) (by decide)

/-- Claim C1: registering before attachment and then attaching yields
the same specification-document state (same document, same raised error,
same queue) as attaching first and then registering with identical
arguments. -/
theorem deferred_register_equiv (c : Coordinator) (a : App) (call : Call)
    (hApp : c.app = none) (hOk : (init_app c a).2 = none) :
    (init_app (register c call).1 a).1.spec = (register (init_app c a).1 call).1.spec
    ∧ (init_app (register c call).1 a).2 = (register (init_app c a).1 call).2
    ∧ (init_app (register c call).1 a).1.deferred
        = (register (init_app c a).1 call).1.deferred := by
  have hd0 : (drainGo a (a.config.apispecSpec.getD []) c.deferred).2.2 = none := hOk
  have hd : drainGo a (a.config.apispecSpec.getD []) c.deferred
      = ((drainGo a (a.config.apispecSpec.getD []) c.deferred).1,
         (drainGo a (a.config.apispecSpec.getD []) c.deferred).2.1, none) := by
    rw [← hd0]
  have happ := drainGo_append_ok a c.deferred (a.config.apispecSpec.getD [])
      (drainGo a (a.config.apispecSpec.getD []) c.deferred).1
      (drainGo a (a.config.apispecSpec.getD []) c.deferred).2.1 [call] hd
  rw [register_unattached c call hApp]
  cases hr : _register a (drainGo a (a.config.apispecSpec.getD []) c.deferred).1 call with
  | ok sp2 =>
    have hone : drainGo a (drainGo a (a.config.apispecSpec.getD []) c.deferred).1 [call]
        = (sp2, [call], none) := by
      simp [drainGo, hr]
    rw [register_attached_ok (init_app c a).1 a
        (drainGo a (a.config.apispecSpec.getD []) c.deferred).1 call sp2 rfl rfl hr]
    refine ⟨?_, ?_, ?_⟩
    · show some (drainGo a (a.config.apispecSpec.getD []) (c.deferred ++ [call])).1 = some sp2
      rw [happ, hone]
    · show (drainGo a (a.config.apispecSpec.getD []) (c.deferred ++ [call])).2.2 = none
      rw [happ, hone]
    · rfl
  | error e =>
    have hone : drainGo a (drainGo a (a.config.apispecSpec.getD []) c.deferred).1 [call]
        = ((drainGo a (a.config.apispecSpec.getD []) c.deferred).1, [call], some e) := by
      simp [drainGo, hr]
    rw [register_attached_error (init_app c a).1 a
        (drainGo a (a.config.apispecSpec.getD []) c.deferred).1 call e rfl rfl hr]
    refine ⟨?_, ?_, ?_⟩
    · show some (drainGo a (a.config.apispecSpec.getD []) (c.deferred ++ [call])).1
        = some (drainGo a (a.config.apispecSpec.getD []) c.deferred).1
      rw [happ, hone]
    · show (drainGo a (a.config.apispecSpec.getD []) (c.deferred ++ [call])).2.2 = some e
      rw [happ, hone]
    · rfl

/-- Witness for C1 on a fresh coordinator and the concrete band route. -/
theorem deferred_register_equiv_witness :
    (init_app (register newCoordinator goodCall).1 appEx).1.spec
        = (register (init_app newCoordinator appEx).1 goodCall).1.spec
    ∧ (init_app (register newCoordinator goodCall).1 appEx).2
        = (register (init_app newCoordinator appEx).1 goodCall).2
    ∧ (init_app (register newCoordinator goodCall).1 appEx).1.deferred
        = (register (init_app newCoordinator appEx).1 goodCall).1.deferred :=
  deferred_register_equiv newCoordinator appEx goodCall rfl (by decide)

/-- Claim C5: registering the same target (same arguments, hence the
same converted descriptors) a second time overwrites instead of
duplicating: the second `_register` returns the document unchanged, the
document keeps at most one entry per template, and each template the
registration produces has exactly one entry. -/
theorem register_same_target_twice_overwrites (a : App) (sp sp1 : Spec) (call : Call)
    (ps : List PathEntry) (hwf : wfSpec sp)
    (hconv : convertTarget a call = Except.ok ps)
    (h1 : _register a sp call = Except.ok sp1) :
    _register a sp1 call = Except.ok sp1
    ∧ wfSpec sp1
    ∧ ∀ pe ∈ ps, (keysOf sp1).count pe.path = 1 := by
  have hsp : sp1 = ps.foldl specPath sp := by
    have h2 := _register_of_convert_ok a sp call ps hconv
    have h3 := h1.symm.trans h2
    simpa using h3
  have hwf1 : wfSpec sp1 := by
    rw [hsp]
    exact wf_foldl_specPath ps sp hwf
  refine ⟨_register_idem a sp sp1 call h1, hwf1, ?_⟩
  intro pe hpe
  have hmem : pe.path ∈ keysOf sp1 := by
    rw [hsp]
    exact mem_keys_foldl_self ps sp pe hpe
  have hle : (keysOf sp1).count pe.path ≤ 1 :=
    List.nodup_iff_count_le_one.mp hwf1 pe.path
  have hge : 0 < (keysOf sp1).count pe.path := List.count_pos_iff.mpr hmem
  omega

/-- Witness for C5 on the concrete band registration performed twice. -/
theorem register_same_target_twice_overwrites_witness :
    _register appEx specG goodCall = Except.ok specG
    ∧ wfSpec specG
    ∧ (keysOf specG).count bandPath = 1 := by
  have h := register_same_target_twice_overwrites appEx [] specG goodCall
    [bandEntry] (by decide) (by decide) (by decide)
  exact ⟨h.1, h.2.1, h.2.2 bandEntry (by decide)⟩

/-! Helper lemmas for the `register_existing_resources` scan. -/

theorem scanGo_cons (c : Coordinator) (nt : String × Target)
    (rest : List (String × Target)) :
    registerExistingGo c (nt :: rest) =
      match (register c (scanCall nt)).2 with
      | none => registerExistingGo (register c (scanCall nt)).1 rest
      | some Err.typeError => registerExistingGo (register c (scanCall nt)).1 rest
      | some e => ((register c (scanCall nt)).1, some e) := rfl

theorem scanGo_cons_continue (c : Coordinator) (nt : String × Target)
    (rest : List (String × Target))
    (h : (register c (scanCall nt)).2 = none
        ∨ (register c (scanCall nt)).2 = some Err.typeError) :
    registerExistingGo c (nt :: rest)
      = registerExistingGo (register c (scanCall nt)).1 rest := by
  rw [scanGo_cons]
  rcases h with h | h <;> rw [h]

theorem scanGo_cons_stop (c : Coordinator) (nt : String × Target)
    (rest : List (String × Target)) (e : Err) (hne : e ≠ Err.typeError)
    (h : (register c (scanCall nt)).2 = some e) :
    registerExistingGo c (nt :: rest) = ((register c (scanCall nt)).1, some e) := by
  rw [scanGo_cons, h]
  cases e with
  | typeError => exact absurd rfl hne
  | lookupError s => rfl
  | valueError s => rfl
  | attributeError => rfl

theorem scanGo_keys_mono (l : List (String × Target)) :
    ∀ (c : Coordinator) (t : String),
      t ∈ specKeys c → t ∈ specKeys (registerExistingGo c l).1 := by
  induction l with
  | nil =>
    intro c t h
    exact h
  | cons nt rest ih =>
    intro c t h
    rw [scanGo_cons]
    cases hE : (register c (scanCall nt)).2 with
    | none => exact ih _ _ (register_keys_mono c _ t h)
    | some e =>
      cases e with
      | typeError => exact ih _ _ (register_keys_mono c _ t h)
      | lookupError s => exact register_keys_mono c _ t h
      | valueError s => exact register_keys_mono c _ t h
      | attributeError => exact register_keys_mono c _ t h

theorem scanGo_complete (a : App) (l : List (String × Target)) :
    ∀ (c : Coordinator), c.app = some a → c.spec.isSome = true →
      (registerExistingGo c l).2 = none →
      ∀ nt ∈ l, ∀ ps, convertTarget a (scanCall nt) = Except.ok ps →
        ∀ pe ∈ ps, pe.path ∈ specKeys (registerExistingGo c l).1 := by
  induction l with
  | nil =>
    intro c _ _ _ nt hnt
    cases hnt
  | cons nt0 rest ih =>
    intro c hA hS hdone nt hnt ps hconv pe hpe
    rcases List.mem_cons.mp hnt with heq | hmem
    · subst heq
      obtain ⟨sp, hSsp⟩ := Option.isSome_iff_exists.mp hS
      have hreg : _register a sp (scanCall nt) = Except.ok (ps.foldl specPath sp) :=
        _register_of_convert_ok a sp (scanCall nt) ps hconv
      have hrw := register_attached_ok c a sp (scanCall nt) (ps.foldl specPath sp)
        hA hSsp hreg
      have hcont := scanGo_cons_continue c nt rest (Or.inl (by rw [hrw]))
      rw [hcont]
      apply scanGo_keys_mono rest
      rw [hrw]
      show pe.path ∈ keysOf (ps.foldl specPath sp)
      exact mem_keys_foldl_self ps sp pe hpe
    · cases hE : (register c (scanCall nt0)).2 with
      | none =>
        have hcont := scanGo_cons_continue c nt0 rest (Or.inl hE)
        rw [hcont] at hdone ⊢
        refine ih _ ?_ (register_spec_isSome c _ hS) hdone nt hmem ps hconv pe hpe
        rw [register_app]
        exact hA
      | some e =>
        by_cases hte : e = Err.typeError
        · subst hte
          have hcont := scanGo_cons_continue c nt0 rest (Or.inr hE)
          rw [hcont] at hdone ⊢
          refine ih _ ?_ (register_spec_isSome c _ hS) hdone nt hmem ps hconv pe hpe
          rw [register_app]
          exact hA
        · have hstop := scanGo_cons_stop c nt0 rest e hte hE
          rw [hstop] at hdone
          simp at hdone

/-- Claim C6: `register_existing_resources` attempts a registration for
every entry of the view-function table; a per-item TypeError is
swallowed and the scan continues with the next item, any other error
propagates and ends the scan, and when the whole scan reports no error
every qualifying route's templates are present in the final document. -/
theorem register_existing_resources_bulk_scan (c : Coordinator) (a : App)
    (hA : c.app = some a) (hS : c.spec.isSome = true) :
    (∀ (nt : String × Target) (rest2 : List (String × Target)),
      (register c (scanCall nt)).2 = some Err.typeError →
      registerExistingGo c (nt :: rest2)
        = registerExistingGo (register c (scanCall nt)).1 rest2)
    ∧ (∀ (nt : String × Target) (rest2 : List (String × Target)) (e : Err),
      e ≠ Err.typeError → (register c (scanCall nt)).2 = some e →
      registerExistingGo c (nt :: rest2) = ((register c (scanCall nt)).1, some e))
    ∧ ((register_existing_resources c).2 = none →
      ∀ nt ∈ a.viewFunctions, ∀ ps, convertTarget a (scanCall nt) = Except.ok ps →
        ∀ pe ∈ ps, pe.path ∈ specKeys (register_existing_resources c).1) := by
  have hrr : register_existing_resources c = registerExistingGo c a.viewFunctions := by
    unfold register_existing_resources
    rw [hA]
  refine ⟨?_, ?_, ?_⟩
  · intro nt rest2 h
    exact scanGo_cons_continue c nt rest2 (Or.inr h)
  · intro nt rest2 e hne h
    exact scanGo_cons_stop c nt rest2 e hne h
  · intro hdone nt hnt ps hconv pe hpe
    rw [hrr] at hdone ⊢
    exact scanGo_complete a a.viewFunctions c hA hS hdone nt hnt ps hconv pe hpe

/-- Witness for C6: the scan over `appEx` (one static route, one band
route) swallows the static route's TypeError and registers the band
route. -/
theorem register_existing_resources_bulk_scan_witness :
    (register_existing_resources cAttached).2 = none
    ∧ bandPath ∈ specKeys (register_existing_resources cAttached).1 := by
  refine ⟨by decide, ?_⟩
  exact (register_existing_resources_bulk_scan cAttached appEx rfl rfl).2.2 (by decide)
    ("get_band", Target.function "get_band" ["band"]) (by decide) [bandEntry] (by decide)
    bandEntry (by decide)

end FlaskApiSpec
